import Mathlib

/-!
Verification of `github_tools.py`: a shallow embedding of the `GitHubAPI`
client class (the `_get` helper and the four public methods) together with
models of the Python standard-library routines the code calls
(`base64.b64decode`, `base64.b64encode`, `str.decode("utf-8")`,
`dict.get`, `str.split`).

The HTTP layer is modelled by a function `Net : String → Except String JSON`
giving, for each endpoint, either the parsed JSON body of a successful
response or the message of a raised `requests.exceptions.RequestException`.
Each client method returns its Python outcome (a value or a raised
exception) together with the ordered list of endpoints it requested.
-/

namespace GithubTools

/-- JSON values, as produced by `response.json()`.  Numbers are modelled as
integers; no claim depends on numeric payloads. -/
inductive JSON where
  | null : JSON
  | bool : Bool → JSON
  | num : Int → JSON
  | str : String → JSON
  | arr : List JSON → JSON
  | obj : List (String × JSON) → JSON

/-- Python truthiness of a JSON payload (`if not x`): `None`, `False`, `0`,
`""`, `[]` and `\x7b\x7d` are falsy. -/
def JSON.falsy : JSON → Bool
  | .null => true
  | .bool b => !b
  | .num n => n == 0
  | .str s => s.isEmpty
  | .arr xs => xs.isEmpty
  | .obj fs => fs.isEmpty

/-- Python truthiness (`if x`). -/
def JSON.truthy (j : JSON) : Bool := !j.falsy

/-- The Python exceptions the program can raise or catch.  Each carries the
text `str(e)` would produce. -/
inductive PyExc where
  | requestException : String → PyExc
  | unicodeDecodeError : String → PyExc
  | typeError : String → PyExc
  | valueError : String → PyExc
  | keyError : String → PyExc
  | attributeError : String → PyExc
  deriving DecidableEq

/-- `str(e)` for an exception: the carried message. -/
def PyExc.toMessage : PyExc → String
  | .requestException m => m
  | .unicodeDecodeError m => m
  | .typeError m => m
  | .valueError m => m
  | .keyError m => m
  | .attributeError m => m

/-- Does the exception match the handler `except (UnicodeDecodeError, TypeError)`? -/
def PyExc.isDecodeExc : PyExc → Bool
  | .unicodeDecodeError _ => true
  | .typeError _ => true
  | _ => false

/-- `d.get(key, default)` on a Python value: succeeds on a dict, raises
`AttributeError` on anything else. -/
def pyGet (j : JSON) (key : String) (default : JSON) : Except PyExc JSON :=
  match j with
  | .obj fs => .ok ((List.lookup key fs).getD default)
  | _ => .error (.attributeError "object has no attribute get")

/-- `key in d` for a dict; `False` on non-containers (no claim exercises
membership tests on non-dict payloads). -/
def JSON.hasKey (j : JSON) (key : String) : Bool :=
  match j with
  | .obj fs => (List.lookup key fs).isSome
  | _ => false

/-- `d[key]`: the value, or `KeyError` / `TypeError`. -/
def JSON.idx (j : JSON) (key : String) : Except PyExc JSON :=
  match j with
  | .obj fs =>
    match List.lookup key fs with
    | some v => .ok v
    | none => .error (.keyError key)
  | _ => .error (.typeError "object is not subscriptable")

/-- `str(x)` as interpolated into an f-string.  Only the `str` case (and the
`"main"` default) is exercised by any claim; other payloads are rendered
approximately. -/
def JSON.pyStr : JSON → String
  | .str s => s
  | .null => "None"
  | .bool true => "True"
  | .bool false => "False"
  | .num n => toString n
  | .arr _ => "[...]"
  | .obj _ => "\x7b...\x7d"

/-- `\x7b"error": msg\x7d`, the error-result dictionaries the methods build. -/
def errObj (msg : String) : JSON := .obj [("error", .str msg)]

/-- The network: each endpoint yields either a parsed JSON body or the
message of a raised `requests.exceptions.RequestException`. -/
abbrev Net := String → Except String JSON

/-! ### base64 (model of `base64.b64encode` / `base64.b64decode`)

`b64decode` follows CPython's lenient `binascii.a2b_base64`
(`validate=False`, the default used by the source): characters outside the
alphabet are skipped, a padding sequence that completes a quad ends the
input, and a dangling quad position at the end raises `binascii.Error`
(a `ValueError`). -/

/-- The standard base64 alphabet. -/
def b64chars : List Char :=
  "ABCDEFGHIJKLMNOPQRSTUVWXYZabcdefghijklmnopqrstuvwxyz0123456789+/".data

/-- The alphabet character for a 6-bit group. -/
def b64char (n : Nat) : Char := b64chars.getD n 'A'

/-- The 6-bit value of an alphabet character, `none` outside the alphabet. -/
def b64val (c : Char) : Option Nat :=
  if 'A' ≤ c ∧ c ≤ 'Z' then some (c.toNat - 65)
  else if 'a' ≤ c ∧ c ≤ 'z' then some (c.toNat - 97 + 26)
  else if '0' ≤ c ∧ c ≤ '9' then some (c.toNat - 48 + 52)
  else if c = '+' then some 62
  else if c = '/' then some 63
  else none

/-- `base64.b64encode`: bytes to base64 text, three bytes per quad, padded
with `=`. -/
def b64encodeBytes : List Nat → List Char
  | a :: b :: c :: rest =>
      b64char (a / 4) :: b64char (a % 4 * 16 + b / 16) :: b64char (b % 16 * 4 + c / 64) ::
        b64char (c % 64) :: b64encodeBytes rest
  | [a, b] => [b64char (a / 4), b64char (a % 4 * 16 + b / 16), b64char (b % 16 * 4), '=']
  | [a] => [b64char (a / 4), b64char (a % 4 * 16), '=', '=']
  | [] => []

/-- `base64.b64encode` producing a string. -/
def b64encode (bs : List Nat) : String := String.mk (b64encodeBytes bs)

/-- The state machine of CPython's `binascii.a2b_base64` (lenient mode):
`quadPos` is the position within the current quad, `leftchar` the pending
bits, `pads` the number of padding characters seen since the last data
character, `acc` the output bytes in reverse.  As in CPython, a `=` counts
toward completing the quad only at quad position 2 or 3 (and is otherwise
skipped), every data character resets `pads`, and a dangling quad position
at the end of input raises `binascii.Error` (the one-extra-character
message carries the data-character count `len(output) / 3 * 4 + 1`). -/
def a2bLoop : List Char → Nat → Nat → Nat → List Nat → Except String (List Nat)
  | [], quadPos, _, _, acc =>
      if quadPos = 0 then .ok acc.reverse
      else if quadPos = 1 then
        .error ("Invalid base64-encoded string: number of data characters (" ++
          toString (acc.length / 3 * 4 + 1) ++ ") cannot be 1 more than a multiple of 4")
      else .error "Incorrect padding"
  | c :: rest, quadPos, leftchar, pads, acc =>
      if c = '=' then
        if 2 ≤ quadPos then
          if 4 ≤ quadPos + (pads + 1) then .ok acc.reverse
          else a2bLoop rest quadPos leftchar (pads + 1) acc
        else a2bLoop rest quadPos leftchar pads acc
      else
        match b64val c with
        | none => a2bLoop rest quadPos leftchar pads acc
        | some v =>
          match quadPos with
          | 0 => a2bLoop rest 1 v 0 acc
          | 1 => a2bLoop rest 2 (v % 16) 0 ((leftchar * 4 + v / 16) :: acc)
          | 2 => a2bLoop rest 3 (v % 4) 0 ((leftchar * 16 + v / 4) :: acc)
          | _ => a2bLoop rest 0 0 0 ((leftchar * 64 + v) :: acc)

/-- `base64.b64decode` on a `str` argument: the string must be ASCII
(CPython encodes it with the `ascii` codec first, raising `ValueError`
otherwise), then the `a2b` state machine runs.  Errors model the raised
`ValueError` / `binascii.Error` messages. -/
def b64decode (s : String) : Except String (List Nat) :=
  if s.data.all (fun c => c.toNat < 128) then a2bLoop s.data 0 0 0 []
  else .error "string argument should contain only ASCII characters"

/-! ### UTF-8 (model of `bytes.decode("utf-8")`, strict errors) -/

/-- UTF-8 encoding of one code point (model of `str.encode("utf-8")` for
one character). -/
def utf8EncodeChar (n : Nat) : List Nat :=
  if n < 128 then [n]
  else if n < 2048 then [192 + n / 64, 128 + n % 64]
  else if n < 65536 then [224 + n / 4096, 128 + n / 64 % 64, 128 + n % 64]
  else [240 + n / 262144, 128 + n / 4096 % 64, 128 + n / 64 % 64, 128 + n % 64]

/-- UTF-8 encoding of a character sequence. -/
def utf8Encode (s : List Char) : List Nat :=
  (s.map (fun c => utf8EncodeChar c.toNat)).flatten

/-- The scalar value of a two-byte UTF-8 sequence. -/
def utf8Val2 (b1 b2 : Nat) : Nat := (b1 - 192) * 64 + (b2 - 128)

/-- Validity of a two-byte UTF-8 sequence: a lead byte that is not an
overlong form and a continuation byte. -/
def utf8Cond2 (b1 b2 : Nat) : Prop := 194 ≤ b1 ∧ 128 ≤ b2 ∧ b2 < 192

/-- The scalar value of a three-byte UTF-8 sequence. -/
def utf8Val3 (b1 b2 b3 : Nat) : Nat := (b1 - 224) * 4096 + (b2 - 128) * 64 + (b3 - 128)

/-- Validity of a three-byte UTF-8 sequence: continuation bytes, no
overlong form, no surrogate. -/
def utf8Cond3 (b1 b2 b3 : Nat) : Prop :=
  128 ≤ b2 ∧ b2 < 192 ∧ 128 ≤ b3 ∧ b3 < 192 ∧ 2048 ≤ utf8Val3 b1 b2 b3 ∧
    ¬(55296 ≤ utf8Val3 b1 b2 b3 ∧ utf8Val3 b1 b2 b3 < 57344)

/-- The scalar value of a four-byte UTF-8 sequence. -/
def utf8Val4 (b1 b2 b3 b4 : Nat) : Nat :=
  (b1 - 240) * 262144 + (b2 - 128) * 4096 + (b3 - 128) * 64 + (b4 - 128)

/-- Validity of a four-byte UTF-8 sequence: a lead byte at most `0xF4`,
continuation bytes, no overlong form, value inside the Unicode space. -/
def utf8Cond4 (b1 b2 b3 b4 : Nat) : Prop :=
  b1 < 245 ∧ 128 ≤ b2 ∧ b2 < 192 ∧ 128 ≤ b3 ∧ b3 < 192 ∧ 128 ≤ b4 ∧ b4 < 192 ∧
    65536 ≤ utf8Val4 b1 b2 b3 b4 ∧ utf8Val4 b1 b2 b3 b4 < 1114112

instance (b1 b2 : Nat) : Decidable (utf8Cond2 b1 b2) := by unfold utf8Cond2; infer_instance

instance (b1 b2 b3 : Nat) : Decidable (utf8Cond3 b1 b2 b3) := by
  unfold utf8Cond3; infer_instance

instance (b1 b2 b3 b4 : Nat) : Decidable (utf8Cond4 b1 b2 b3 b4) := by
  unfold utf8Cond4; infer_instance

mutual

/-- Strict UTF-8 decoding to code points, as Python's `utf-8` codec with
`errors="strict"`: rejects bad lead or continuation bytes, overlong forms,
surrogates, and values above U+10FFFF.  `none` models a raised
`UnicodeDecodeError`.  `utf8Dec2` / `utf8Dec3` / `utf8Dec4` consume the
continuation bytes of a two-, three- or four-byte sequence whose lead byte
is `b1`. -/
def utf8DecodeAux : List Nat → Option (List Nat)
  | [] => some []
  | b1 :: rest =>
    if b1 < 128 then (utf8DecodeAux rest).map (fun l => b1 :: l)
    else if b1 < 224 then utf8Dec2 b1 rest
    else if b1 < 240 then utf8Dec3 b1 rest
    else utf8Dec4 b1 rest
termination_by l => l.length * 2 + 1
decreasing_by all_goals (simp only [List.length_cons]; omega)

/-- Continuation of a two-byte UTF-8 sequence with lead byte `b1`. -/
def utf8Dec2 (b1 : Nat) : List Nat → Option (List Nat)
  | b2 :: rest2 =>
    if utf8Cond2 b1 b2 then (utf8DecodeAux rest2).map (fun l => utf8Val2 b1 b2 :: l)
    else none
  | [] => none
termination_by l => l.length * 2
decreasing_by all_goals (simp only [List.length_cons]; omega)

/-- Continuation of a three-byte UTF-8 sequence with lead byte `b1`. -/
def utf8Dec3 (b1 : Nat) : List Nat → Option (List Nat)
  | b2 :: b3 :: rest3 =>
    if utf8Cond3 b1 b2 b3 then (utf8DecodeAux rest3).map (fun l => utf8Val3 b1 b2 b3 :: l)
    else none
  | _ => none
termination_by l => l.length * 2
decreasing_by all_goals (simp only [List.length_cons]; omega)

/-- Continuation of a four-byte UTF-8 sequence with lead byte `b1`. -/
def utf8Dec4 (b1 : Nat) : List Nat → Option (List Nat)
  | b2 :: b3 :: b4 :: rest4 =>
    if utf8Cond4 b1 b2 b3 b4 then
      (utf8DecodeAux rest4).map (fun l => utf8Val4 b1 b2 b3 b4 :: l)
    else none
  | _ => none
termination_by l => l.length * 2
decreasing_by all_goals (simp only [List.length_cons]; omega)

end

/-- `bytes.decode("utf-8")`: the decoded string, or `none` for a raised
`UnicodeDecodeError`. -/
def utf8DecodeStr (bs : List Nat) : Option String :=
  (utf8DecodeAux bs).map (fun ns => String.mk (ns.map Char.ofNat))

/-! ### The `GitHubAPI` client methods

Every method returns `(outcome, trace)`: `outcome` is the Python return
value (`.ok`) or the raised exception (`.error`), and `trace` is the
ordered list of endpoints requested through `_get`. -/

/-- `GitHubAPI._get`: issue the request; a `RequestException` is logged and
re-raised, a 2xx response yields its JSON body. -/
def _get (net : Net) (endpoint : String) : Except PyExc JSON × List String :=
  (match net endpoint with
   | .ok j => .ok j
   | .error msg => .error (.requestException msg), [endpoint])

/-- `GitHubAPI.get_repository_details`: `GET repos/{repo_name}`. -/
def get_repository_details (net : Net) (repo_name : String) :
    Except PyExc JSON × List String :=
  _get net ("repos/" ++ repo_name)

/-- The guard of the comprehension in `get_repositories`:
`repo.get("permissions", \x7b\x7d).get("push")`. -/
def pushFlag (repo : JSON) : Except PyExc JSON :=
  match pyGet repo "permissions" (.obj []) with
  | .error e => .error e
  | .ok perms => pyGet perms "push" .null

/-- The comprehension
`[repo for repo in all_repos if repo.get("permissions", \x7b\x7d).get("push")]`,
evaluated left to right; an exception raised by a guard propagates. -/
def filterPushable : List JSON → Except PyExc (List JSON)
  | [] => .ok []
  | repo :: rest =>
    match pushFlag repo with
    | .error e => .error e
    | .ok flag =>
      match filterPushable rest with
      | .error e => .error e
      | .ok tail => .ok (if flag.truthy then repo :: tail else tail)

/-- `GitHubAPI.get_repositories`: fetch `user/repos` and keep the
repositories whose `permissions.push` is truthy; an empty or falsy payload
yields `[]`.  Iterating a truthy non-list payload is a Python runtime
error, modelled as a `TypeError`. -/
def get_repositories (net : Net) : Except PyExc JSON × List String :=
  let (r, t) := _get net "user/repos"
  match r with
  | .error e => (.error e, t)
  | .ok all_repos =>
    if all_repos.truthy then
      match all_repos with
      | .arr repos =>
        (match filterPushable repos with
         | .ok kept => .ok (.arr kept)
         | .error e => .error e, t)
      | _ => (.error (.typeError "object is not iterable"), t)
    else (.ok (.arr []), t)

/-- `base64.b64decode(content).decode("utf-8")`, the decode path of
`get_file_content`: a `binascii.Error` / `ValueError` from the base64 step,
a `UnicodeDecodeError` from the UTF-8 step, or the decoded text. -/
def decodeContent (content : String) : Except PyExc String :=
  match b64decode content with
  | .error m => .error (.valueError m)
  | .ok bytes =>
    match utf8DecodeStr bytes with
    | none => .error (.unicodeDecodeError "utf-8 codec cannot decode byte")
    | some text => .ok text

/-- The `except` clauses of `get_file_content`: a `UnicodeDecodeError` or
`TypeError` becomes the fixed decode error result, any other exception the
generic `Error fetching file` result. -/
def fileExcHandler (body : Except PyExc JSON) : Except PyExc JSON :=
  match body with
  | .ok v => .ok v
  | .error e =>
    if e.isDecodeExc then .ok (errObj "Failed to decode file content")
    else .ok (errObj ("Error fetching file: " ++ e.toMessage))

/-- The `except` clause of `list_files_in_repository`: every exception
becomes the generic `Error listing files` result. -/
def listExcHandler (body : Except PyExc JSON) : Except PyExc JSON :=
  match body with
  | .ok v => .ok v
  | .error e => .ok (errObj ("Error listing files: " ++ e.toMessage))

/-- `GitHubAPI.get_file_content`.  The details lookup and the branch
resolution run outside the `try`, so their exceptions propagate; inside the
`try`, a `UnicodeDecodeError` or `TypeError` becomes the fixed decode
error result and any other exception becomes the generic
`Error fetching file` result. -/
def get_file_content (net : Net) (repo_name : String) (file_path : String) :
    Except PyExc JSON × List String :=
  let (d, t1) := get_repository_details net repo_name
  match d with
  | .error e => (.error e, t1)
  | .ok repository_details =>
    if repository_details.falsy then (.ok (errObj "Repository not found"), t1)
    else
      match pyGet repository_details "default_branch" (.str "main") with
      | .error e => (.error e, t1)
      | .ok branchJson =>
        let branch := branchJson.pyStr
        let (r2, t2) := _get net
          ("repos/" ++ repo_name ++ "/contents/" ++ file_path ++ "?ref=" ++ branch)
        let body : Except PyExc JSON :=
          match r2 with
          | .error e => .error e
          | .ok file_data =>
            if file_data.falsy || !file_data.hasKey "content" then
              .ok (errObj ("File \x27" ++ file_path ++ "\x27 not found on branch \x27" ++
                branch ++ "\x27"))
            else
              match file_data.idx "content" with
              | .error e => .error e
              | .ok contentJson =>
                match contentJson with
                | .str contentText =>
                  (match decodeContent contentText with
                   | .error e => .error e
                   | .ok decoded_content =>
                     match file_data.idx "path" with
                     | .error e => .error e
                     | .ok pathVal =>
                       match file_data.idx "url" with
                       | .error e => .error e
                       | .ok urlVal =>
                         .ok (.obj [("path", pathVal), ("content", .str decoded_content),
                           ("url", urlVal)]))
                | _ => .error (.typeError
                    "argument should be a bytes-like object or ASCII string")
        (fileExcHandler body, t1 ++ t2)

/-- `s.split("/")`: the `"/"`-separated segments, as Python `str.split`
with a one-character separator (an empty string yields one empty segment,
adjacent separators yield empty segments). -/
def splitSlash : List Char → List (List Char)
  | [] => [[]]
  | c :: rest =>
    match splitSlash rest with
    | g :: gs => if c = '/' then [] :: g :: gs else (c :: g) :: gs
    | [] => [[c]]

/-- `item["path"].split("/")[-1]`: the last `"/"`-separated segment. -/
def basename (p : String) : String := String.mk ((splitSlash p.data).getLastD [])

/-- The comprehension of `list_files_in_repository`: each tree item becomes
`\x7b"name": basename(path), "type": type, "path": path\x7d`; a missing key
raises `KeyError`, a non-string path has no `split` attribute. -/
def mapTreeItems : List JSON → Except PyExc (List JSON)
  | [] => .ok []
  | item :: rest =>
    match item.idx "path" with
    | .error e => .error e
    | .ok pathJson =>
      match pathJson with
      | .str p =>
        (match item.idx "type" with
         | .error e => .error e
         | .ok tyVal =>
           match mapTreeItems rest with
           | .error e => .error e
           | .ok tail =>
             .ok (.obj [("name", .str (basename p)), ("type", tyVal), ("path", .str p)] :: tail))
      | _ => .error (.attributeError "object has no attribute split")

/-- `GitHubAPI.list_files_in_repository`.  Details lookup and branch
resolution run outside the `try`; the tree request and the mapping run
inside it, with every exception converted to the generic
`Error listing files` result. -/
def list_files_in_repository (net : Net) (repo_name : String) :
    Except PyExc JSON × List String :=
  let (d, t1) := get_repository_details net repo_name
  match d with
  | .error e => (.error e, t1)
  | .ok repo_details =>
    if repo_details.falsy then (.ok (errObj "Repository not found"), t1)
    else
      match pyGet repo_details "default_branch" (.str "main") with
      | .error e => (.error e, t1)
      | .ok branchJson =>
        let branch := branchJson.pyStr
        let (r2, t2) := _get net
          ("repos/" ++ repo_name ++ "/git/trees/" ++ branch ++ "?recursive=1")
        let body : Except PyExc JSON :=
          match r2 with
          | .error e => .error e
          | .ok contents =>
            if contents.falsy || !contents.hasKey "tree" then .ok (.arr [])
            else
              match contents.idx "tree" with
              | .error e => .error e
              | .ok treeJson =>
                match treeJson with
                | .arr items =>
                  (match mapTreeItems items with
                   | .error e => .error e
                   | .ok entries => .ok (.arr entries))
                | _ => .error (.typeError "object is not iterable")
        (listExcHandler body, t1 ++ t2)

/-! ### Fixtures for the claim witnesses -/

/-- Follows the spec's words (claim C1): the record's permissions include
push access `true`. -/
def specPushTrue (r : JSON) : Bool :=
  match r with
  | .obj fs =>
    match List.lookup "permissions" fs with
    | some (.obj ps) =>
      match List.lookup "push" ps with
      | some (.bool b) => b
      | _ => false
    | _ => false
  | _ => false

/-- A repository record shaped as the listing endpoint returns it: a JSON
object whose `permissions` field, when present, is an object whose `push`
field, when present, is a boolean. -/
def wellFormedRepo (r : JSON) : Bool :=
  match r with
  | .obj fs =>
    match List.lookup "permissions" fs with
    | none => true
    | some (.obj ps) =>
      match List.lookup "push" ps with
      | none => true
      | some (.bool _) => true
      | some _ => false
    | some _ => false
  | _ => false

/-- The branch the file methods resolve from a details payload `obj fs`:
its `default_branch` entry, or the `"main"` fallback. -/
def branchOf (fs : List (String × JSON)) : String :=
  ((List.lookup "default_branch" fs).getD (.str "main")).pyStr

/-- A record with push permission. -/
def wRepoA : JSON := .obj [("name", .str "alpha"), ("permissions", .obj [("push", .bool true)])]

/-- A record without push permission. -/
def wRepoB : JSON := .obj [("name", .str "beta"), ("permissions", .obj [("push", .bool false)])]

/-- A record with no permissions field. -/
def wRepoC : JSON := .obj [("name", .str "gamma")]

/-- A listing endpoint serving the three records above. -/
def wNetRepos : Net := fun e =>
  if e = "user/repos" then .ok (.arr [wRepoA, wRepoB, wRepoC]) else .error "404 Client Error"

/-- A details endpoint serving an empty object. -/
def wNetEmptyDetails : Net := fun e =>
  if e = "repos/acme/widget" then .ok (.obj []) else .error "404 Client Error"

/-- A network on which every request raises. -/
def wNetDown : Net := fun _ => .error "connection error"

/-- A network serving only the details of `acme/widget`. -/
def wNetDetailsOnly : Net := fun e =>
  if e = "repos/acme/widget" then .ok (.obj [("default_branch", .str "dev")])
  else .error "500 Server Error"

/-- The record `list_files_in_repository` builds from one tree entry. -/
def treeEntry (p : String) (ty : JSON) : JSON :=
  .obj [("name", .str (basename p)), ("type", ty), ("path", .str p)]

/-- A tree item shaped as the tree endpoint returns it: an object with a
string `path` and some `type`. -/
def wfTreeItem (i : JSON) : Bool :=
  match i with
  | .obj fs =>
    (match List.lookup "path" fs with
     | some (.str _) => true
     | _ => false) && (List.lookup "type" fs).isSome
  | _ => false

/-- The entry built from a well-formed tree item. -/
def treeItemEntry (i : JSON) : JSON :=
  match i with
  | .obj fs =>
    treeEntry
      (match List.lookup "path" fs with
       | some (.str p) => p
       | _ => "")
      ((List.lookup "type" fs).getD .null)
  | _ => .null

/-- A `blob` item under `src/`. -/
def wItemFile : JSON := .obj [("path", .str "src/a.go"), ("type", .str "blob")]

/-- A `tree` (directory) item. -/
def wItemDir : JSON := .obj [("path", .str "src"), ("type", .str "tree")]

/-- A network serving details and a two-entry recursive tree. -/
def wNetTree : Net := fun e =>
  if e = "repos/acme/widget" then .ok (.obj [("default_branch", .str "dev")])
  else if e = "repos/acme/widget/git/trees/dev?recursive=1" then
    .ok (.obj [("tree", .arr [wItemFile, wItemDir])])
  else .error "404 Client Error"

/-- A network whose contents response lacks a `content` field. -/
def wNetNoContent : Net := fun e =>
  if e = "repos/acme/widget" then .ok (.obj [("default_branch", .str "dev")])
  else if e = "repos/acme/widget/contents/README.md?ref=dev" then
    .ok (.obj [("message", .str "Not Found")])
  else .error "404 Client Error"

/-- A network whose contents response is the base64 encoding of the byte
`0xFF`, which no UTF-8 sequence produces. -/
def wNetBadUtf8 : Net := fun e =>
  if e = "repos/acme/widget" then .ok (.obj [("default_branch", .str "dev")])
  else if e = "repos/acme/widget/contents/blob.bin?ref=dev" then
    .ok (.obj [("path", .str "blob.bin"), ("content", .str "/w=="), ("url", .str "u")])
  else .error "404 Client Error"

/-- A network whose contents response carries messy but leniently
decodable base64 (`A=B=CC`, bytes `00 10 82`) that is not valid UTF-8. -/
def wNetLenientB64 : Net := fun e =>
  if e = "repos/acme/widget" then .ok (.obj [("default_branch", .str "dev")])
  else if e = "repos/acme/widget/contents/odd.bin?ref=dev" then
    .ok (.obj [("path", .str "odd.bin"), ("content", .str "A=B=CC"), ("url", .str "u")])
  else .error "404 Client Error"

/-- A network whose tree response has no `tree` field. -/
def wNetNoTree : Net := fun e =>
  if e = "repos/acme/widget" then .ok (.obj [("default_branch", .str "dev")])
  else if e = "repos/acme/widget/git/trees/dev?recursive=1" then
    .ok (.obj [("sha", .str "abc")])
  else .error "404 Client Error"

/-- A details payload with no `default_branch` field. -/
def wNetNoBranch : Net := fun e =>
  if e = "repos/acme/widget" then .ok (.obj [("name", .str "widget")])
  else .error "404 Client Error"

/-- A contents response whose `content` is not valid base64 text. -/
def wNetBadB64 : Net := fun e =>
  if e = "repos/acme/widget" then .ok (.obj [("default_branch", .str "dev")])
  else if e = "repos/acme/widget/contents/odd.txt?ref=dev" then
    .ok (.obj [("path", .str "odd.txt"), ("content", .str "a"), ("url", .str "u")])
  else .error "404 Client Error"

/-! ### base64 round trip -/

theorem b64val_b64char : ∀ n, n < 64 → b64val (b64char n) = some n := by decide

theorem b64char_ne_pad : ∀ n, n < 64 → ¬ b64char n = '=' := by decide

theorem b64char_ascii (n : Nat) : (b64char n).toNat < 128 := by
  by_cases h : n < 64
  · revert h; revert n; decide
  · unfold b64char
    rw [List.getD_eq_default]
    · decide
    · have : b64chars.length = 64 := by decide
      omega

/-- Stepping the decode state machine over one non-padding alphabet
character at quad position 0. -/
theorem a2bLoop_cons0 (ch : Char) (rest : List Char) (lc pads : Nat)
    (acc : List Nat) (v : Nat) (hne : ¬ ch = '=') (hv : b64val ch = some v) :
    a2bLoop (ch :: rest) 0 lc pads acc = a2bLoop rest 1 v 0 acc := by
  simp only [a2bLoop, if_neg hne, hv]

/-- Quad position 1: the first output byte is emitted. -/
theorem a2bLoop_cons1 (ch : Char) (rest : List Char) (lc pads : Nat)
    (acc : List Nat) (v : Nat) (hne : ¬ ch = '=') (hv : b64val ch = some v) :
    a2bLoop (ch :: rest) 1 lc pads acc =
      a2bLoop rest 2 (v % 16) 0 ((lc * 4 + v / 16) :: acc) := by
  simp only [a2bLoop, if_neg hne, hv]

/-- Quad position 2: the second output byte is emitted. -/
theorem a2bLoop_cons2 (ch : Char) (rest : List Char) (lc pads : Nat)
    (acc : List Nat) (v : Nat) (hne : ¬ ch = '=') (hv : b64val ch = some v) :
    a2bLoop (ch :: rest) 2 lc pads acc =
      a2bLoop rest 3 (v % 4) 0 ((lc * 16 + v / 4) :: acc) := by
  simp only [a2bLoop, if_neg hne, hv]

/-- Quad position 3: the third output byte is emitted and the quad closes. -/
theorem a2bLoop_cons3 (ch : Char) (rest : List Char) (lc pads : Nat)
    (acc : List Nat) (v : Nat) (hne : ¬ ch = '=') (hv : b64val ch = some v) :
    a2bLoop (ch :: rest) 3 lc pads acc =
      a2bLoop rest 0 0 0 ((lc * 64 + v) :: acc) := by
  simp only [a2bLoop, if_neg hne, hv]

/-- Decoding one full encoded quad emits the three source bytes. -/
theorem a2bLoop_quad (a b c : Nat) (ha : a < 256) (hb : b < 256) (hc : c < 256)
    (rest : List Char) (lc pads : Nat) (acc : List Nat) :
    a2bLoop (b64char (a / 4) :: b64char (a % 4 * 16 + b / 16) ::
        b64char (b % 16 * 4 + c / 64) :: b64char (c % 64) :: rest) 0 lc pads acc =
      a2bLoop rest 0 0 0 (c :: b :: a :: acc) := by
  rw [a2bLoop_cons0 _ _ _ _ _ _ (b64char_ne_pad _ (by omega)) (b64val_b64char _ (by omega))]
  rw [a2bLoop_cons1 _ _ _ _ _ _ (b64char_ne_pad _ (by omega)) (b64val_b64char _ (by omega))]
  rw [a2bLoop_cons2 _ _ _ _ _ _ (b64char_ne_pad _ (by omega)) (b64val_b64char _ (by omega))]
  rw [a2bLoop_cons3 _ _ _ _ _ _ (b64char_ne_pad _ (by omega)) (b64val_b64char _ (by omega))]
  have e1 : a / 4 * 4 + (a % 4 * 16 + b / 16) / 16 = a := by omega
  have e2 : (a % 4 * 16 + b / 16) % 16 * 16 + (b % 16 * 4 + c / 64) / 4 = b := by omega
  have e3 : (b % 16 * 4 + c / 64) % 4 * 64 + c % 64 = c := by omega
  rw [e1, e2, e3]

/-- Decoding a final two-byte group (one padding character). -/
theorem a2bLoop_tail2 (a b : Nat) (ha : a < 256) (hb : b < 256)
    (lc pads : Nat) (acc : List Nat) :
    a2bLoop [b64char (a / 4), b64char (a % 4 * 16 + b / 16), b64char (b % 16 * 4), '=']
        0 lc pads acc = .ok (acc.reverse ++ [a, b]) := by
  rw [a2bLoop_cons0 _ _ _ _ _ _ (b64char_ne_pad _ (by omega)) (b64val_b64char _ (by omega))]
  rw [a2bLoop_cons1 _ _ _ _ _ _ (b64char_ne_pad _ (by omega)) (b64val_b64char _ (by omega))]
  rw [a2bLoop_cons2 _ _ _ _ _ _ (b64char_ne_pad _ (by omega)) (b64val_b64char _ (by omega))]
  have e1 : a / 4 * 4 + (a % 4 * 16 + b / 16) / 16 = a := by omega
  have e2 : (a % 4 * 16 + b / 16) % 16 * 16 + (b % 16 * 4) / 4 = b := by omega
  rw [e1, e2]
  simp only [a2bLoop, if_pos rfl, if_pos (by omega : 2 ≤ 3),
    if_pos (by omega : 4 ≤ 3 + (0 + 1))]
  simp

/-- Decoding a final one-byte group (two padding characters). -/
theorem a2bLoop_tail1 (a : Nat) (ha : a < 256) (lc pads : Nat) (acc : List Nat) :
    a2bLoop [b64char (a / 4), b64char (a % 4 * 16), '=', '='] 0 lc pads acc =
      .ok (acc.reverse ++ [a]) := by
  rw [a2bLoop_cons0 _ _ _ _ _ _ (b64char_ne_pad _ (by omega)) (b64val_b64char _ (by omega))]
  rw [a2bLoop_cons1 _ _ _ _ _ _ (b64char_ne_pad _ (by omega)) (b64val_b64char _ (by omega))]
  have e1 : a / 4 * 4 + a % 4 * 16 / 16 = a := by omega
  rw [e1]
  simp only [a2bLoop, if_pos rfl, if_pos (by omega : 2 ≤ 2),
    if_neg (by omega : ¬ 4 ≤ 2 + (0 + 1)), if_pos (by omega : 4 ≤ 2 + (0 + 1 + 1))]
  simp

/-- The decode state machine inverts the encoder, for byte-valued input. -/
theorem a2bLoop_encode (bs : List Nat) (h : ∀ x ∈ bs, x < 256) :
    ∀ lc pads acc, a2bLoop (b64encodeBytes bs) 0 lc pads acc = .ok (acc.reverse ++ bs) := by
  induction bs using b64encodeBytes.induct with
  | case1 a b c rest ih =>
      intro lc pads acc
      rw [b64encodeBytes,
        a2bLoop_quad a b c (h a (by simp)) (h b (by simp)) (h c (by simp)),
        ih (fun x hx => h x (by simp [hx]))]
      simp
  | case2 a b =>
      intro lc pads acc
      rw [b64encodeBytes]
      exact a2bLoop_tail2 a b (h a (by simp)) (h b (by simp)) lc pads acc
  | case3 a =>
      intro lc pads acc
      rw [b64encodeBytes]
      exact a2bLoop_tail1 a (h a (by simp)) lc pads acc
  | case4 =>
      intro lc pads acc
      simp [b64encodeBytes, a2bLoop]

theorem b64encodeBytes_ascii (bs : List Nat) :
    ∀ c ∈ b64encodeBytes bs, c.toNat < 128 := by
  induction bs using b64encodeBytes.induct with
  | case1 a b c rest ih =>
      rw [b64encodeBytes]
      intro ch hch
      simp only [List.mem_cons] at hch
      rcases hch with h | h | h | h | h
      all_goals first
        | (subst h; exact b64char_ascii _)
        | exact ih ch h
  | case2 a b =>
      rw [b64encodeBytes]
      intro ch hch
      simp only [List.mem_cons, List.not_mem_nil, or_false] at hch
      rcases hch with h | h | h | h <;> subst h
      all_goals first
        | exact b64char_ascii _
        | decide
  | case3 a =>
      rw [b64encodeBytes]
      intro ch hch
      simp only [List.mem_cons, List.not_mem_nil, or_false] at hch
      rcases hch with h | h | h | h <;> subst h
      all_goals first
        | exact b64char_ascii _
        | decide
  | case4 =>
      rw [b64encodeBytes]
      intro ch hch
      simp at hch

/-- `b64decode` inverts `b64encode` on byte sequences. -/
theorem b64decode_b64encode (bs : List Nat) (h : ∀ x ∈ bs, x < 256) :
    b64decode (b64encode bs) = .ok bs := by
  unfold b64decode b64encode
  rw [if_pos]
  · simpa using a2bLoop_encode bs h 0 0 []
  · simp only [List.all_eq_true, decide_eq_true_eq]
    exact b64encodeBytes_ascii bs

/-! ### UTF-8 round trip -/

/-- A valid Unicode scalar value: inside the Unicode space and not a
surrogate. -/
def ValidCP (n : Nat) : Prop := n < 1114112 ∧ ¬(55296 ≤ n ∧ n < 57344)

/-- Every Lean `Char` carries a valid scalar value. -/
theorem char_toNat_valid (c : Char) : ValidCP c.toNat := by
  have h : c.val.toNat < 55296 ∨ (57343 < c.val.toNat ∧ c.val.toNat < 1114112) := c.valid
  have e : c.toNat = c.val.toNat := rfl
  unfold ValidCP
  rw [e]
  omega

/-- Decoding the encoding of one valid scalar consumes exactly its bytes. -/
theorem utf8DecodeAux_encodeChar (n : Nat) (hv : ValidCP n) (rest : List Nat) :
    utf8DecodeAux (utf8EncodeChar n ++ rest) =
      (utf8DecodeAux rest).map (fun l => n :: l) := by
  obtain ⟨hlt, hsur⟩ := hv
  unfold utf8EncodeChar
  by_cases h1 : n < 128
  · rw [if_pos h1]
    simp only [List.cons_append, List.nil_append]
    rw [utf8DecodeAux, if_pos h1]
  · rw [if_neg h1]
    by_cases h2 : n < 2048
    · rw [if_pos h2]
      simp only [List.cons_append, List.nil_append]
      rw [utf8DecodeAux]
      rw [if_neg (by omega : ¬ 192 + n / 64 < 128)]
      rw [if_pos (by omega : 192 + n / 64 < 224)]
      rw [utf8Dec2]
      rw [if_pos (show utf8Cond2 (192 + n / 64) (128 + n % 64) by unfold utf8Cond2; omega)]
      have e : utf8Val2 (192 + n / 64) (128 + n % 64) = n := by unfold utf8Val2; omega
      rw [e]
    · rw [if_neg h2]
      by_cases h3 : n < 65536
      · rw [if_pos h3]
        simp only [List.cons_append, List.nil_append]
        rw [utf8DecodeAux]
        rw [if_neg (by omega : ¬ 224 + n / 4096 < 128)]
        rw [if_neg (by omega : ¬ 224 + n / 4096 < 224)]
        rw [if_pos (by omega : 224 + n / 4096 < 240)]
        rw [utf8Dec3]
        rw [if_pos (show utf8Cond3 (224 + n / 4096) (128 + n / 64 % 64) (128 + n % 64) by
          unfold utf8Cond3 utf8Val3; omega)]
        have e : utf8Val3 (224 + n / 4096) (128 + n / 64 % 64) (128 + n % 64) = n := by
          unfold utf8Val3; omega
        rw [e]
      · rw [if_neg h3]
        simp only [List.cons_append, List.nil_append]
        rw [utf8DecodeAux]
        rw [if_neg (by omega : ¬ 240 + n / 262144 < 128)]
        rw [if_neg (by omega : ¬ 240 + n / 262144 < 224)]
        rw [if_neg (by omega : ¬ 240 + n / 262144 < 240)]
        rw [utf8Dec4]
        rw [if_pos (show utf8Cond4 (240 + n / 262144) (128 + n / 4096 % 64)
            (128 + n / 64 % 64) (128 + n % 64) by unfold utf8Cond4 utf8Val4; omega)]
        have e : utf8Val4 (240 + n / 262144) (128 + n / 4096 % 64) (128 + n / 64 % 64)
            (128 + n % 64) = n := by unfold utf8Val4; omega
        rw [e]

/-- Decoding inverts encoding, at the level of code-point sequences. -/
theorem utf8Decode_utf8Encode (s : List Char) :
    utf8DecodeAux (utf8Encode s) = some (s.map Char.toNat) := by
  induction s with
  | nil => simp [utf8Encode, utf8DecodeAux]
  | cons c cs ih =>
      unfold utf8Encode at ih ⊢
      simp only [List.map_cons, List.flatten_cons]
      rw [utf8DecodeAux_encodeChar c.toNat (char_toNat_valid c), ih]
      rfl

/-- Every byte produced by the UTF-8 encoder is a byte. -/
theorem utf8EncodeChar_lt_256 (n : Nat) (hv : n < 1114112) :
    ∀ b ∈ utf8EncodeChar n, b < 256 := by
  unfold utf8EncodeChar
  split
  · intro b hb; simp only [List.mem_singleton] at hb; omega
  · split
    · intro b hb
      simp only [List.mem_cons, List.not_mem_nil, or_false] at hb
      rcases hb with h | h <;> omega
    · split
      · intro b hb
        simp only [List.mem_cons, List.not_mem_nil, or_false] at hb
        rcases hb with h | h | h <;> omega
      · intro b hb
        simp only [List.mem_cons, List.not_mem_nil, or_false] at hb
        rcases hb with h | h | h | h <;> omega

theorem utf8Encode_lt_256 (s : List Char) : ∀ b ∈ utf8Encode s, b < 256 := by
  intro b hb
  unfold utf8Encode at hb
  simp only [List.mem_flatten, List.mem_map] at hb
  obtain ⟨l, ⟨c, hc, hl⟩, hbl⟩ := hb
  exact utf8EncodeChar_lt_256 c.toNat (char_toNat_valid c).1 b (hl ▸ hbl)

/-- Decoding inverts encoding, at the level of strings. -/
theorem utf8DecodeStr_encode (s : String) :
    utf8DecodeStr (utf8Encode s.data) = some s := by
  unfold utf8DecodeStr
  rw [utf8Decode_utf8Encode]
  simp only [Option.map_some', List.map_map]
  have e : Char.ofNat ∘ Char.toNat = id := funext Char.ofNat_toNat
  rw [e, List.map_id]

/-! ### Spec-side predicates and auxiliary lemmas for the claims -/

/-- On a well-formed record the comprehension guard evaluates without an
exception and its truthiness is exactly the spec's push-access predicate. -/
theorem pushFlag_wf (r : JSON) (h : wellFormedRepo r = true) :
    ∃ flag, pushFlag r = .ok flag ∧ flag.truthy = specPushTrue r := by
  cases r <;> simp [wellFormedRepo] at h
  case obj fs =>
  unfold pushFlag pyGet specPushTrue
  cases hp : List.lookup "permissions" fs with
  | none => exact ⟨.null, by simp [hp], by simp [hp, JSON.truthy, JSON.falsy]⟩
  | some p =>
    rw [hp] at h
    cases p <;> simp at h
    case obj ps =>
    cases hq : List.lookup "push" ps with
    | none => exact ⟨.null, by simp [hp, hq, pyGet], by simp [hp, hq, JSON.truthy, JSON.falsy]⟩
    | some q =>
      rw [hq] at h
      cases q <;> simp at h
      case bool b =>
      exact ⟨.bool b, by simp [hp, hq, pyGet],
        by cases b <;> simp [hp, hq, JSON.truthy, JSON.falsy]⟩

/-- On well-formed records the comprehension succeeds and computes the
spec-side filter. -/
theorem filterPushable_wf (rs : List JSON) (h : ∀ r ∈ rs, wellFormedRepo r = true) :
    filterPushable rs = .ok (rs.filter specPushTrue) := by
  induction rs with
  | nil => rfl
  | cons r rest ih =>
    obtain ⟨flag, hf, ht⟩ := pushFlag_wf r (h r (by simp))
    rw [filterPushable, hf, ih (fun x hx => h x (by simp [hx]))]
    simp [List.filter_cons, ht]

/-- Claim C4's decode path: base64-encoding the UTF-8 bytes of any string
and running it through `decodeContent` returns the string unchanged. -/
theorem C4_decode_path_roundtrip (s : String) :
    decodeContent (b64encode (utf8Encode s.data)) = .ok s := by
  simp [decodeContent, b64decode_b64encode _ (utf8Encode_lt_256 s.data),
    utf8DecodeStr_encode]

/-! ### Claim theorems -/

/-- C1: for every list of repository records returned by the listing
endpoint, `get_repositories` returns exactly the subset of records whose
permissions include push access `true` (in source order), and for an empty
or absent (`null`) upstream payload it returns an empty sequence, after the
single `user/repos` request. -/
theorem C1_get_repositories_push_filter (net : Net) (rs : List JSON)
    (hnet : net "user/repos" = .ok (.arr rs))
    (hwf : ∀ r ∈ rs, wellFormedRepo r = true) :
    get_repositories net = (.ok (.arr (rs.filter specPushTrue)), ["user/repos"]) ∧
    (∀ net2 : Net, (net2 "user/repos" = .ok .null ∨ net2 "user/repos" = .ok (.arr [])) →
      get_repositories net2 = (.ok (.arr []), ["user/repos"])) := by
  constructor
  · unfold get_repositories _get
    rw [hnet]
    cases rs with
    | nil => simp [JSON.truthy, JSON.falsy]
    | cons r rest =>
        simp [JSON.truthy, JSON.falsy, filterPushable_wf _ hwf]
  · intro net2 h2
    unfold get_repositories _get
    rcases h2 with h2 | h2 <;> rw [h2] <;> simp [JSON.truthy, JSON.falsy]

/-- Witness for C1: on a concrete three-record listing only the pushable
record survives. -/
theorem C1_witness :
    get_repositories wNetRepos = (.ok (.arr [wRepoA]), ["user/repos"]) := by
  have h := (C1_get_repositories_push_filter wNetRepos [wRepoA, wRepoB, wRepoC] rfl
    (by decide)).1
  rw [show [wRepoA, wRepoB, wRepoC].filter specPushTrue = [wRepoA] from rfl] at h
  exact h

/-- C2: when the repository-details lookup yields an empty (falsy) payload,
`get_file_content` returns the `Repository not found` error result, and the
request trace shows that no further request is issued. -/
theorem C2_get_file_content_repo_not_found (net : Net) (repo path : String) (j : JSON)
    (hnet : net ("repos/" ++ repo) = .ok j) (hj : j.falsy = true) :
    get_file_content net repo path =
      (.ok (errObj "Repository not found"), ["repos/" ++ repo]) := by
  unfold get_file_content get_repository_details _get
  rw [hnet]
  simp [hj]

/-- Witness for C2 at a concrete empty details payload. -/
theorem C2_witness :
    get_file_content wNetEmptyDetails "acme/widget" "README.md" =
      (.ok (errObj "Repository not found"), ["repos/acme/widget"]) :=
  C2_get_file_content_repo_not_found wNetEmptyDetails "acme/widget" "README.md"
    (.obj []) rfl rfl

/-- A nonempty object is truthy. -/
theorem obj_falsy_of_ne_nil (fs : List (String × JSON)) (h : fs ≠ []) :
    (JSON.obj fs).falsy = false := by
  cases fs with
  | nil => simp at h
  | cons a l => rfl

/-- C3: a transport/HTTP error in the detail fetch propagates as a raised
failure out of `get_repository_details` and out of both file-oriented
methods (whose detail call runs outside their `try`), while a transport
error in the listing-specific or content-specific fetch is caught and
converted into an `error` result value. -/
theorem C3_transport_error_semantics (repo path msg : String) :
    (∀ net : Net, net ("repos/" ++ repo) = .error msg →
      get_repository_details net repo =
        (.error (.requestException msg), ["repos/" ++ repo]) ∧
      get_file_content net repo path =
        (.error (.requestException msg), ["repos/" ++ repo]) ∧
      list_files_in_repository net repo =
        (.error (.requestException msg), ["repos/" ++ repo])) ∧
    (∀ net : Net, ∀ fs : List (String × JSON), fs ≠ [] →
      net ("repos/" ++ repo) = .ok (.obj fs) →
      net ("repos/" ++ repo ++ "/contents/" ++ path ++ "?ref=" ++ branchOf fs) =
        .error msg →
      (get_file_content net repo path).1 =
        .ok (errObj ("Error fetching file: " ++ msg))) ∧
    (∀ net : Net, ∀ fs : List (String × JSON), fs ≠ [] →
      net ("repos/" ++ repo) = .ok (.obj fs) →
      net ("repos/" ++ repo ++ "/git/trees/" ++ branchOf fs ++ "?recursive=1") =
        .error msg →
      (list_files_in_repository net repo).1 =
        .ok (errObj ("Error listing files: " ++ msg))) := by
  refine ⟨fun net hnet => ⟨?_, ?_, ?_⟩,
    fun net fs hfs hd hc => ?_, fun net fs hfs hd hc => ?_⟩
  · unfold get_repository_details _get
    rw [hnet]
  · unfold get_file_content get_repository_details _get
    rw [hnet]
  · unfold list_files_in_repository get_repository_details _get
    rw [hnet]
  · unfold branchOf at hc
    unfold get_file_content get_repository_details _get
    rw [hd]
    simp [obj_falsy_of_ne_nil fs hfs, pyGet, hc, PyExc.isDecodeExc, PyExc.toMessage,
      fileExcHandler]
  · unfold branchOf at hc
    unfold list_files_in_repository get_repository_details _get
    rw [hd]
    simp [obj_falsy_of_ne_nil fs hfs, pyGet, hc, PyExc.toMessage, listExcHandler]

/-- On well-formed items the comprehension succeeds and maps each item to
its entry, in order. -/
theorem mapTreeItems_wf (items : List JSON) (h : ∀ i ∈ items, wfTreeItem i = true) :
    mapTreeItems items = .ok (items.map treeItemEntry) := by
  induction items with
  | nil => rfl
  | cons i rest ih =>
    have hi := h i (by simp)
    cases i with
    | null => simp [wfTreeItem] at hi
    | bool b => simp [wfTreeItem] at hi
    | num n => simp [wfTreeItem] at hi
    | str s => simp [wfTreeItem] at hi
    | arr xs => simp [wfTreeItem] at hi
    | obj fs =>
    simp only [wfTreeItem, Bool.and_eq_true] at hi
    obtain ⟨hp, ht⟩ := hi
    cases hpath : List.lookup "path" fs with
    | none => rw [hpath] at hp; simp at hp
    | some pv =>
      rw [hpath] at hp
      cases pv <;> simp at hp
      case str p =>
      cases htype : List.lookup "type" fs with
      | none => rw [htype] at ht; simp at ht
      | some tv =>
        rw [mapTreeItems]
        simp [JSON.idx, hpath, htype, ih (fun x hx => h x (by simp [hx])),
          treeItemEntry, treeEntry]

/-- C5: for every tree response carrying a `tree` array of well-formed
entries, `list_files_in_repository` maps each entry, in source order, to
the record with `name` the last `/`-separated segment of its path, `type`
its type, and `path` its path. -/
theorem C5_list_files_entry_mapping (net : Net) (repo : String)
    (fs gs : List (String × JSON)) (items : List JSON)
    (hfs : fs ≠ [])
    (hd : net ("repos/" ++ repo) = .ok (.obj fs))
    (ht : net ("repos/" ++ repo ++ "/git/trees/" ++ branchOf fs ++ "?recursive=1") =
      .ok (.obj gs))
    (hg : List.lookup "tree" gs = some (.arr items))
    (hwf : ∀ i ∈ items, wfTreeItem i = true) :
    (list_files_in_repository net repo).1 = .ok (.arr (items.map treeItemEntry)) := by
  have hgs : gs ≠ [] := by intro hnil; subst hnil; simp at hg
  unfold branchOf at ht
  unfold list_files_in_repository get_repository_details _get
  rw [hd]
  simp [obj_falsy_of_ne_nil fs hfs, obj_falsy_of_ne_nil gs hgs, pyGet,
    ht, JSON.hasKey, hg, JSON.idx, mapTreeItems_wf items hwf, listExcHandler]

/-- Witness for C5: the two mocked entries come back mapped and in order. -/
theorem C5_witness :
    (list_files_in_repository wNetTree "acme/widget").1 =
      .ok (.arr
        [.obj [("name", .str "a.go"), ("type", .str "blob"), ("path", .str "src/a.go")],
         .obj [("name", .str "src"), ("type", .str "tree"), ("path", .str "src")]]) := by
  have h := C5_list_files_entry_mapping wNetTree "acme/widget"
    [("default_branch", .str "dev")] [("tree", .arr [wItemFile, wItemDir])]
    [wItemFile, wItemDir] (by simp) rfl rfl rfl (by decide)
  exact h.trans (by rfl)

/-- C6: when the details resolve but the contents response is empty or has
no `content` field, `get_file_content` reports that the file is missing on
the resolved branch, naming both. -/
theorem C6_file_not_found_message (net : Net) (repo path : String)
    (fs : List (String × JSON)) (j : JSON) (hfs : fs ≠ [])
    (hd : net ("repos/" ++ repo) = .ok (.obj fs))
    (hc : net ("repos/" ++ repo ++ "/contents/" ++ path ++ "?ref=" ++ branchOf fs) = .ok j)
    (hj : j.falsy = true ∨ j.hasKey "content" = false) :
    (get_file_content net repo path).1 =
      .ok (errObj ("File \x27" ++ path ++ "\x27 not found on branch \x27" ++
        branchOf fs ++ "\x27")) := by
  unfold branchOf at hc ⊢
  unfold get_file_content get_repository_details _get
  rw [hd]
  rcases hj with hj | hj <;>
    simp [obj_falsy_of_ne_nil fs hfs, pyGet, hc, hj, fileExcHandler]

/-- Witness for C6 at a concrete missing file. -/
theorem C6_witness :
    (get_file_content wNetNoContent "acme/widget" "README.md").1 =
      .ok (errObj "File \x27README.md\x27 not found on branch \x27dev\x27") := by
  have h := C6_file_not_found_message wNetNoContent "acme/widget" "README.md"
    [("default_branch", .str "dev")] (.obj [("message", .str "Not Found")])
    (by simp) rfl rfl (Or.inr rfl)
  exact h.trans (by rfl)

/-- C7: when the base64 payload decodes to bytes that are not valid UTF-8,
`get_file_content` returns the fixed decode error result. -/
theorem C7_invalid_utf8_decode_error (net : Net) (repo path : String)
    (fs gs : List (String × JSON)) (ctext : String) (bytes : List Nat)
    (hfs : fs ≠ [])
    (hd : net ("repos/" ++ repo) = .ok (.obj fs))
    (hc : net ("repos/" ++ repo ++ "/contents/" ++ path ++ "?ref=" ++ branchOf fs) =
      .ok (.obj gs))
    (hct : List.lookup "content" gs = some (.str ctext))
    (hb : b64decode ctext = .ok bytes)
    (hdec : utf8DecodeAux bytes = none) :
    (get_file_content net repo path).1 = .ok (errObj "Failed to decode file content") := by
  have hgs : gs ≠ [] := by intro hnil; subst hnil; simp at hct
  unfold branchOf at hc
  unfold get_file_content get_repository_details _get decodeContent utf8DecodeStr
  rw [hd]
  simp [obj_falsy_of_ne_nil fs hfs, obj_falsy_of_ne_nil gs hgs, pyGet, hc,
    JSON.hasKey, hct, JSON.idx, hb, hdec, PyExc.isDecodeExc, fileExcHandler]

/-- Witness for C7: base64 `/w==` decodes to the byte 255 and the lenient
decode of `A=B=CC` to `00 10 82`; the UTF-8 decoder rejects both. -/
theorem C7_witness :
    (get_file_content wNetBadUtf8 "acme/widget" "blob.bin").1 =
      .ok (errObj "Failed to decode file content") ∧
    (get_file_content wNetLenientB64 "acme/widget" "odd.bin").1 =
      .ok (errObj "Failed to decode file content") :=
  ⟨C7_invalid_utf8_decode_error wNetBadUtf8 "acme/widget" "blob.bin"
    [("default_branch", .str "dev")]
    [("path", .str "blob.bin"), ("content", .str "/w=="), ("url", .str "u")]
    "/w==" [255] (by simp) rfl rfl rfl rfl (by simp [utf8DecodeAux, utf8Dec4]),
   C7_invalid_utf8_decode_error wNetLenientB64 "acme/widget" "odd.bin"
    [("default_branch", .str "dev")]
    [("path", .str "odd.bin"), ("content", .str "A=B=CC"), ("url", .str "u")]
    "A=B=CC" [0, 16, 130] (by simp) rfl rfl rfl rfl
    (by simp [utf8DecodeAux, utf8Dec2])⟩

/-- C8: when the details resolve but the tree response is empty or has no
`tree` field, `list_files_in_repository` returns an empty sequence, not an
error result. -/
theorem C8_no_tree_yields_empty (net : Net) (repo : String)
    (fs : List (String × JSON)) (j : JSON) (hfs : fs ≠ [])
    (hd : net ("repos/" ++ repo) = .ok (.obj fs))
    (ht : net ("repos/" ++ repo ++ "/git/trees/" ++ branchOf fs ++ "?recursive=1") = .ok j)
    (hj : j.falsy = true ∨ j.hasKey "tree" = false) :
    (list_files_in_repository net repo).1 = .ok (.arr []) := by
  unfold branchOf at ht
  unfold list_files_in_repository get_repository_details _get
  rw [hd]
  rcases hj with hj | hj <;>
    simp [obj_falsy_of_ne_nil fs hfs, pyGet, ht, hj, listExcHandler]

/-- Witness for C8 at a concrete tree-less response. -/
theorem C8_witness :
    (list_files_in_repository wNetNoTree "acme/widget").1 = .ok (.arr []) :=
  C8_no_tree_yields_empty wNetNoTree "acme/widget"
    [("default_branch", .str "dev")] (.obj [("sha", .str "abc")])
    (by simp) rfl rfl (Or.inr rfl)

/-- Witness for C3: a downed network makes the detail fetch raise, while a
failing second fetch yields error-result values. -/
theorem C3_witness :
    get_repository_details wNetDown "acme/widget" =
      (.error (.requestException "connection error"), ["repos/acme/widget"]) ∧
    (get_file_content wNetDetailsOnly "acme/widget" "a.txt").1 =
      .ok (errObj "Error fetching file: 500 Server Error") ∧
    (list_files_in_repository wNetDetailsOnly "acme/widget").1 =
      .ok (errObj "Error listing files: 500 Server Error") :=
  ⟨((C3_transport_error_semantics "acme/widget" "a.txt" "connection error").1
      wNetDown rfl).1,
   (C3_transport_error_semantics "acme/widget" "a.txt" "500 Server Error").2.1
      wNetDetailsOnly [("default_branch", .str "dev")] (by simp) rfl rfl,
   (C3_transport_error_semantics "acme/widget" "a.txt" "500 Server Error").2.2
      wNetDetailsOnly [("default_branch", .str "dev")] (by simp) rfl rfl⟩

/-- The file-content handler never lets an exception escape. -/
theorem fileExcHandler_isOk (body : Except PyExc JSON) :
    (fileExcHandler body).isOk = true := by
  cases body with
  | ok v => rfl
  | error e =>
    unfold fileExcHandler
    by_cases h : e.isDecodeExc <;> simp only [h, Bool.false_eq_true, if_true, if_false] <;> rfl

/-- The file-listing handler never lets an exception escape. -/
theorem listExcHandler_isOk (body : Except PyExc JSON) :
    (listExcHandler body).isOk = true := by
  cases body with
  | ok v => rfl
  | error e => rfl

/-- C9: when the details payload resolves but carries no `default_branch`
field, both file methods fall back to the branch name `main` for their
second request (visible in the trace), and neither raises. -/
theorem C9_default_branch_fallback (net : Net) (repo path : String)
    (fs : List (String × JSON)) (hfs : fs ≠ [])
    (hnb : List.lookup "default_branch" fs = none)
    (hd : net ("repos/" ++ repo) = .ok (.obj fs)) :
    (get_file_content net repo path).2 =
      ["repos/" ++ repo, "repos/" ++ repo ++ "/contents/" ++ path ++ "?ref=" ++ "main"] ∧
    (list_files_in_repository net repo).2 =
      ["repos/" ++ repo, "repos/" ++ repo ++ "/git/trees/" ++ "main" ++ "?recursive=1"] ∧
    ((get_file_content net repo path).1).isOk = true ∧
    ((list_files_in_repository net repo).1).isOk = true := by
  refine ⟨?_, ?_, ?_, ?_⟩
  · unfold get_file_content get_repository_details _get
    rw [hd]
    simp [obj_falsy_of_ne_nil fs hfs, pyGet, hnb, JSON.pyStr]
  · unfold list_files_in_repository get_repository_details _get
    rw [hd]
    simp [obj_falsy_of_ne_nil fs hfs, pyGet, hnb, JSON.pyStr]
  · unfold get_file_content get_repository_details _get
    rw [hd]
    simp only [obj_falsy_of_ne_nil fs hfs, pyGet, hnb, Option.getD_none, Bool.false_eq_true,
      if_false]
    exact fileExcHandler_isOk _
  · unfold list_files_in_repository get_repository_details _get
    rw [hd]
    simp only [obj_falsy_of_ne_nil fs hfs, pyGet, hnb, Option.getD_none, Bool.false_eq_true,
      if_false]
    exact listExcHandler_isOk _

/-- Witness for C9: the second request of both methods targets `main`. -/
theorem C9_witness :
    (get_file_content wNetNoBranch "acme/widget" "a.txt").2 =
      ["repos/acme/widget", "repos/acme/widget/contents/a.txt?ref=main"] ∧
    (list_files_in_repository wNetNoBranch "acme/widget").2 =
      ["repos/acme/widget", "repos/acme/widget/git/trees/main?recursive=1"] :=
  ⟨(C9_default_branch_fallback wNetNoBranch "acme/widget" "a.txt"
      [("name", .str "widget")] (by simp) rfl rfl).1,
   (C9_default_branch_fallback wNetNoBranch "acme/widget" "a.txt"
      [("name", .str "widget")] (by simp) rfl rfl).2.1⟩

/-- A generic fetch-error message never equals the fixed decode-error
message. -/
theorem errorFetching_ne_decode (m : String) :
    ("Error fetching file: " ++ m) ≠ "Failed to decode file content" := by
  intro h
  have h1 := congrArg String.data h
  rw [String.data_append] at h1
  have h2 := congrArg List.head? h1
  rw [List.head?_append] at h2
  rw [show "Error fetching file: ".data.head? = some 'E' from rfl] at h2
  rw [show "Failed to decode file content".data.head? = some 'F' from rfl] at h2
  simp at h2

/-- C10: a `content` field that is present but not valid base64 text is
reported through the generic `Error fetching file` handler, not as the
fixed decode error. -/
theorem C10_invalid_base64_generic_error (net : Net) (repo path : String)
    (fs gs : List (String × JSON)) (ctext m : String)
    (hfs : fs ≠ [])
    (hd : net ("repos/" ++ repo) = .ok (.obj fs))
    (hc : net ("repos/" ++ repo ++ "/contents/" ++ path ++ "?ref=" ++ branchOf fs) =
      .ok (.obj gs))
    (hct : List.lookup "content" gs = some (.str ctext))
    (hb : b64decode ctext = .error m) :
    (get_file_content net repo path).1 = .ok (errObj ("Error fetching file: " ++ m)) ∧
    errObj ("Error fetching file: " ++ m) ≠ errObj "Failed to decode file content" := by
  constructor
  · have hgs : gs ≠ [] := by intro hnil; subst hnil; simp at hct
    unfold branchOf at hc
    unfold get_file_content get_repository_details _get decodeContent
    rw [hd]
    simp [obj_falsy_of_ne_nil fs hfs, obj_falsy_of_ne_nil gs hgs, pyGet, hc,
      JSON.hasKey, hct, JSON.idx, hb, PyExc.isDecodeExc, PyExc.toMessage, fileExcHandler]
  · intro h
    simp only [errObj, JSON.obj.injEq, List.cons.injEq, Prod.mk.injEq, JSON.str.injEq,
      and_true, true_and] at h
    exact errorFetching_ne_decode m h

/-- Witness for C10: the one-character payload `a` is rejected by the
base64 decoder and surfaces through the generic handler. -/
theorem C10_witness :
    (get_file_content wNetBadB64 "acme/widget" "odd.txt").1 =
      .ok (errObj ("Error fetching file: " ++
        "Invalid base64-encoded string: number of data characters (1) cannot be 1 more than a multiple of 4")) :=
  (C10_invalid_base64_generic_error wNetBadB64 "acme/widget" "odd.txt"
    [("default_branch", .str "dev")]
    [("path", .str "odd.txt"), ("content", .str "a"), ("url", .str "u")]
    "a" "Invalid base64-encoded string: number of data characters (1) cannot be 1 more than a multiple of 4"
    (by simp) rfl rfl rfl rfl).1

end GithubTools
